import Mathlib

/-!
Verification of the firmware core of the drone_air_system repository,
shallowly embedded in Lean.

Embedded sources:
* src/arduino/sensor/sensor.ino — tachometer ISR and RPM derivation,
  pressure SPI decode and calibration, HDC2022 environmental cache,
  command dispatcher, merged CSV header and telemetry row.
* src/arduino/libraries/MeComAPI/src/ArduinoSerial/ArduinoSerial.cpp —
  the half-duplex bus receive loop.

Modelling conventions: 32-bit unsigned machine integers (uint32_t
variables such as fgPulses and the value of millis()) are Nats reduced
mod 2^32 at exactly the operations where C wraps; float values are
modelled over the rationals, exact at every value the claims touch, with
not-a-number tracked as an explicit constructor; serial output is a list
of abstract field/line tokens rather than rendered text, except where a
claim is about literal text.
-/

/-- 2^32, the modulus of 32-bit unsigned arithmetic (uint32_t, millis). -/
def U32MOD : Nat := 4294967296

/-- C unsigned 32-bit subtraction a - b: wraps modulo 2^32.  Used for
`pulses - lastPulses` (sensor.ino line 331) and `millis() - startTime`
(ArduinoSerial.cpp line 36). -/
def u32sub (a b : Nat) : Nat := (a + U32MOD - b % U32MOD) % U32MOD

/-- sensor.ino line 84: `const int PULSES_PER_REV = 6;` -/
def PULSES_PER_REV : Nat := 6

/-- sensor.ino lines 104-106: the falling-edge ISR increments the
uint32_t counter fgPulses by one (wrapping on overflow). -/
def ISR_fg (fgPulses : Nat) : Nat := (fgPulses + 1) % U32MOD

/-- sensor.ino line 334: `pump_rpm = (dp * 60.0f) / (float)PULSES_PER_REV`.
The float arithmetic is exact at these magnitudes, modelled in ℚ. -/
def pumpRpm (dp : Nat) : ℚ := (dp * 60 : ℚ) / (PULSES_PER_REV : ℚ)

/-- sensor.ino line 321: the telemetry period is 1000 ms. -/
def TELEMETRY_PERIOD_MS : Nat := 1000

/-- A float value as carried through the telemetry path: an exact
numeric value (float arithmetic modelled in ℚ) or not-a-number. -/
inductive FVal where
  | num (q : ℚ)
  | nan
deriving DecidableEq

/-- sensor.ino lines 21-26: readFloat.  The MeCom client call is
abstracted by its return code `ret` (1 = success) and the value `v` it
would deliver; on failure the function returns NAN, and okOut is
`ret == 1`. -/
def readFloatM (ret : Nat) (v : ℚ) : FVal × Bool :=
  if ret = 1 then (FVal.num v, true) else (FVal.nan, false)

/-- sensor.ino lines 28-33: readLong.  On failure returns -1, okOut is
`ret == 1`. -/
def readLongM (ret : Nat) (v : Int) : Int × Bool :=
  if ret = 1 then (v, true) else (-1, false)

/-- sensor.ino line 77: `const float P_min = 0.0;` -/
def P_min : ℚ := 0

/-- sensor.ino line 78: `const float P_max = 1.6;` (modelled exactly). -/
def P_max : ℚ := 8 / 5

/-- sensor.ino line 79: `const float Out_min = 1638.0;` -/
def Out_min : ℚ := 1638

/-- sensor.ino line 80: `const float Out_max = 14746.0;` -/
def Out_max : ℚ := 14746

/-- sensor.ino line 149: `status = (byte1 >> 6) & 0x03`. -/
def pressStatus (byte1 : Nat) : Nat := Nat.land (Nat.shiftRight byte1 6) 3

/-- sensor.ino line 148: `rawCounts = ((byte1 & 0x3F) << 8) | byte2`. -/
def pressRaw (byte1 byte2 : Nat) : Nat :=
  Nat.lor (Nat.shiftLeft (Nat.land byte1 63) 8) byte2

/-- sensor.ino lines 138-156: readPressure.  pressure_mb starts as NAN
and is only assigned when the status bits are 0, in which case the
two-point linear calibration is applied and scaled to millibar. -/
def readPressure (byte1 byte2 : Nat) : FVal × Nat :=
  let status := pressStatus byte1
  if status = 0 then
    (FVal.num ((((pressRaw byte1 byte2 : ℚ) - Out_min) * (P_max - P_min)
                / (Out_max - Out_min) + P_min) * 1000), status)
  else (FVal.nan, status)

/-- sensor.ino lines 94-95: the environmental cache
`lastTemperature` / `lastHumidity`. -/
structure EnvCache where
  lastTemperature : ℚ
  lastHumidity : ℚ
deriving DecidableEq

/-- sensor.ino lines 94-95: initial sentinels -40.0 and 0.0. -/
def initCache : EnvCache := ⟨-40, 0⟩

/-- Outcome of one readHDCData call (sensor.ino lines 121-135): `fail`
covers both failure exits (bus error on the pointer write, returned
byte count ≠ 4); `success` carries the two little-endian 16-bit raws. -/
inductive HdcResult where
  | fail
  | success (tRaw hRaw : Nat)
deriving DecidableEq

/-- sensor.ino line 132: `temp = (tRaw / 65536.0) * 165.0 - 40.0`. -/
def hdcConvTemp (tRaw : Nat) : ℚ := (tRaw : ℚ) / 65536 * 165 - 40

/-- sensor.ino line 133: `hum = (hRaw / 65536.0) * 100.0`. -/
def hdcConvHum (hRaw : Nat) : ℚ := (hRaw : ℚ) / 65536 * 100

/-- sensor.ino lines 342-348: one telemetry tick's HDC section.  The
locals temperature/humidity start at the cached values; a successful
read overwrites them and the cache; a failed read leaves both alone.
Returns (new cache, (temperature, humidity) as printed in the row). -/
def hdcTick (c : EnvCache) (r : HdcResult) : EnvCache × (ℚ × ℚ) :=
  match r with
  | HdcResult.fail => (c, (c.lastTemperature, c.lastHumidity))
  | HdcResult.success t h => (⟨hdcConvTemp t, hdcConvHum h⟩, (hdcConvTemp t, hdcConvHum h))

/-- Folding hdcTick over a chronological list of read outcomes from a
given cache: returns the final cache and the per-tick printed pairs. -/
def hdcFold (c : EnvCache) : List HdcResult → EnvCache × List (ℚ × ℚ)
  | [] => (c, [])
  | r :: rs =>
    let step := hdcTick c r
    let rest := hdcFold step.1 rs
    (rest.1, step.2 :: rest.2)

/-- Modelled from the spec: "always holds the most recent successful
reading" — the raw payload of the last successful read in a
chronological outcome list, if any. -/
def lastSuccess : List HdcResult → Option (Nat × Nat)
  | [] => none
  | r :: rs =>
    match lastSuccess rs with
    | some x => some x
    | none =>
      match r with
      | HdcResult.fail => none
      | HdcResult.success t h => some (t, h)

/-- One printed field of the telemetry row: an integer print, a float
print with the given decimal-digit count (Serial.print renders nan as
the token nan), or raw text (the error-text field and the literal nan
token of the pressure field). -/
inductive RField where
  | int (n : Int)
  | flt (v : FVal) (digits : Nat)
  | txt (s : List Char)
deriving DecidableEq

/-- C truncation toward zero of a rational (the defined part of a
float-to-long cast). -/
def ratTrunc (q : ℚ) : Int := Int.tdiv q.num (q.den : Int)

/-- sensor.ino lines 359 and 375 cast readFloat results to long with a
C `(long)` cast; on NAN that cast is implementation-defined, so the
value it would produce is threaded in as `nanCast`. -/
def fvalToLong (nanCast : Int) : FVal → Int
  | FVal.num q => ratTrunc q
  | FVal.nan => nanCast

/-- All inputs one telemetry tick depends on: the MeCom client oracles
(per parameter id: return code and delivered value, for float and long
reads), the error-text field, the two pressure SPI bytes, the HDC read
outcome, the implementation-defined long value of a NAN cast, the
fgPulses snapshot and previous sample, the environmental cache and the
commanded pump percent. -/
structure TickInput where
  cliFloatRet : Nat → Nat
  cliFloatVal : Nat → ℚ
  cliLongRet : Nat → Nat
  cliLongVal : Nat → Int
  errText : List Char
  byte1 : Nat
  byte2 : Nat
  hdc : HdcResult
  nanCastLong : Int
  fgSnapshot : Nat
  lastPulses : Nat
  cache : EnvCache
  speed : Int

/-- Result of one telemetry tick: the printed row (in field order) and
the updated mutable state. -/
structure TickResult where
  row : List RField
  newLastPulses : Nat
  newCache : EnvCache

/-- sensor.ino lines 321-439: one firing of the telemetry emitter.  The
row lists the 34 printed fields in source order (lines 392-438): error
triple, error text, LDD/TEC/aux parameter reads, pump RPM, pressure
(literal nan when the status bits are non-zero), temperature, humidity,
commanded pump percent, pressure status. -/
def telemetryTick (inp : TickInput) : TickResult :=
  let dp := u32sub inp.fgSnapshot inp.lastPulses
  let pres := readPressure inp.byte1 inp.byte2
  let hd := hdcTick inp.cache inp.hdc
  let rf : Nat → FVal := fun p => (readFloatM (inp.cliFloatRet p) (inp.cliFloatVal p)).1
  let rl : Nat → Int := fun p => (readLongM (inp.cliLongRet p) (inp.cliLongVal p)).1
  { row := [
      RField.int (rl 105), RField.int (rl 106), RField.int (rl 107),
      RField.txt inp.errText,
      RField.flt (rf 1100) 6, RField.flt (rf 1101) 6,
      RField.int (fvalToLong inp.nanCastLong (rf 1102)),
      RField.flt (rf 1104) 6, RField.flt (rf 1105) 6,
      RField.flt (rf 1402) 6,
      RField.flt (rf 1010) 3, RField.flt (rf 1011) 3, RField.flt (rf 1012) 6,
      RField.flt (rf 1020) 6, RField.flt (rf 1021) 6,
      RField.flt (rf 1000) 3, RField.flt (rf 1001) 3,
      RField.int (fvalToLong inp.nanCastLong (rf 1502)),
      RField.flt (rf 1500) 6,
      RField.flt (rf 1600) 6, RField.flt (rf 1601) 6,
      RField.flt (rf 1200) 3, RField.flt (rf 1201) 3, RField.flt (rf 1202) 3,
      RField.flt (rf 1203) 3, RField.flt (rf 1204) 3,
      RField.flt (rf 1300) 3, RField.flt (rf 1301) 3,
      RField.flt (FVal.num (pumpRpm dp)) 0,
      (if pres.2 = 0 then RField.flt pres.1 1 else RField.txt ("nan".toList)),
      RField.flt (FVal.num hd.2.1) 1, RField.flt (FVal.num hd.2.2) 1,
      RField.int inp.speed,
      RField.int (pres.2 : Int) ],
    newLastPulses := inp.fgSnapshot,
    newCache := hd.1 }

/-- sensor.ino lines 255-271: the CSV header literal printed once at
startup, copied verbatim (the F() fragments concatenate). -/
def mergedHeader : String :=
  "ms," ++
  "ErrorNumber,ErrorInstance,ErrorParameter,ErrorText," ++
  "LDD_ActualOutputCurrent,LDD_ActualOutputVoltage,LDD_ActualOutputCurrentRaw," ++
  "LDD_ActualAnodeVoltage,LDD_ActualCathodeVoltage," ++
  "LDD_NominalOutputCurrentRamp," ++
  "TEC_TargetObjectTemperature,TEC_NominalObjectTemperatureRamp,TEC_ThermalPowerModelCurrent," ++
  "TEC_ActualOutputCurrent,TEC_ActualOutputVoltage," ++
  "TEC_ObjectTemperature,TEC_SinkTemperature," ++
  "AnalogVoltageInputRawADC,AnalogVoltageInput," ++
  "LaserPower,OutputLevel," ++
  "DriverInputVoltage,Internal8V,Internal5V,Internal3V3,InternalMinus3V3," ++
  "DeviceTemperature,PowerstageTemperature," ++
  "pump_rpm,pressure_mb,temp_c,humidity_pct,power_pct,pressure_status"

/-- Split a character list at commas into CSV fields. -/
def splitFields : List Char → List (List Char)
  | [] => [[]]
  | c :: rest =>
    if c = ',' then [] :: splitFields rest
    else
      match splitFields rest with
      | f :: fs => (c :: f) :: fs
      | [] => [[c]]

/-- The characters of a string literal. -/
def chars (s : String) : List Char := s.toList

/-- The leading-whitespace test of the dispatcher (sensor.ino lines 165
and 182): space or tab. -/
def isSpTab (c : Char) : Bool := c == ' ' || c == '\t'

/-- Skip leading spaces and tabs (sensor.ino lines 165, 182). -/
def ltrimC (cs : List Char) : List Char := cs.dropWhile isSpTab

/-- C toupper in the C locale: maps a-z to A-Z, fixes everything else
(sensor.ino line 176). -/
def cToUpper (c : Char) : Char :=
  if 'a' ≤ c ∧ c ≤ 'z' then Char.ofNat (c.toNat - 32) else c

/-- Index of the first character satisfying p, as strchr computes it. -/
def strchrIdx (p : Char → Bool) : List Char → Option Nat
  | [] => none
  | c :: cs => if p c then some 0 else (strchrIdx p cs).map (fun i => i + 1)

/-- sensor.ino lines 164-176: the verb token.  The trimmed line is
copied into a 128-byte buffer (so only the first 127 characters are
kept), cut at the first space — strchr(tmp, ' ') looks for the space
character only — and upper-cased. -/
def codeVerb (line : List Char) : List Char :=
  let l := ltrimC line
  let t := l.take 127
  (match strchrIdx (fun c => c == ' ') t with
   | some i => t.take i
   | none => t).map cToUpper

/-- sensor.ino lines 178-183: the argument.  Present only when a space
was found in the (truncated) copy; taken from the original trimmed line
just past that space, with further leading spaces/tabs skipped. -/
def codeArg (line : List Char) : Option (List Char) :=
  let l := ltrimC line
  match strchrIdx (fun c => c == ' ') (l.take 127) with
  | some i => some (ltrimC (l.drop (i + 1)))
  | none => none

/-- A parameter write issued through the MeCom client.  wFloat keeps the
raw argument characters; the float written is atof of them, which no
claim inspects, so it stays symbolic. -/
inductive WriteCall where
  | wFloat (parId : Nat) (inst : Nat) (argChars : List Char)
  | wLong (parId : Nat) (inst : Nat) (value : Int)
deriving DecidableEq

/-- One line printed on the command interface: a literal ASCII line, or
a literal prefix followed by a float printed with the given number of
decimals (the float being atof of the recorded argument characters,
kept symbolic). -/
inductive OutLine where
  | lit (cs : List Char)
  | floatPrint (pre : List Char) (argChars : List Char) (digits : Nat)
deriving DecidableEq

/-- Observable effects of one dispatched command line: printed lines,
MeCom writes issued, resulting commanded pump percent
(currentSpeedPercent), and the PWM duty value written by setPumpSpeed,
if it was called. -/
structure CmdEffects where
  out : List OutLine
  writes : List WriteCall
  speed : Int
  pwm : Option Int
deriving DecidableEq

/-- Arduino constrain(x, lo, hi). -/
def constrain (x lo hi : Int) : Int :=
  if x < lo then lo else if x > hi then hi else x

/-- sensor.ino lines 97-102: setPumpSpeed constrains to 0..100 and maps
inversely onto PWM: map(s, 0, 100, 255, 0) = s*(0-255)/100 + 255 with C
truncating division.  Returns the duty value written. -/
def setPumpSpeed (speedPercent : Int) : Int :=
  let s := constrain speedPercent 0 100
  Int.tdiv (s * (0 - 255)) 100 + 255

/-- C isspace in the C locale (the characters atoi skips). -/
def isCSpace (c : Char) : Bool :=
  c == ' ' || c == '\t' || c == '\n' || c == '\x0b' || c == '\x0c' || c == '\r'

/-- Accumulate leading decimal digits, stopping at the first
non-digit. -/
def digitsAcc : List Char → Int → Int
  | c :: cs, acc =>
    if '0' ≤ c ∧ c ≤ '9' then digitsAcc cs (acc * 10 + ((c.toNat : Int) - 48))
    else acc
  | [], acc => acc

/-- C atoi: skip whitespace, optional sign, leading digits.  Modelled
without the 16-bit int overflow of the AVR target (undefined there);
claims about it carry an in-range hypothesis. -/
def atoiChars (cs : List Char) : Int :=
  match cs.dropWhile isCSpace with
  | '-' :: rest => - digitsAcc rest 0
  | '+' :: rest => digitsAcc rest 0
  | rest => digitsAcc rest 0

/-- sensor.ino line 13: `const uint8_t INST_MON = 1;` -/
def INST_MON : Nat := 1

/-- sensor.ino line 14: `const uint8_t INST_COMMON = 1;` -/
def INST_COMMON : Nat := 1

/-- sensor.ino lines 185-236: the verb table of handleCommandLine,
applied to the parsed verb and argument.  `clientOk` abstracts the MeCom
client's success for each write.  Branches appear in source order. -/
def dispatch (clientOk : WriteCall → Bool) (speed : Int)
    (verb : List Char) (arg : Option (List Char)) : CmdEffects :=
  if verb = chars "PING" then ⟨[OutLine.lit (chars "OK PONG")], [], speed, none⟩
  else if verb = chars "GET" then ⟨[OutLine.lit (chars "OK GET")], [], speed, none⟩
  else if verb = chars "RESET" then
    let c := WriteCall.wLong 111 INST_COMMON 1
    if clientOk c then ⟨[OutLine.lit (chars "OK RESET")], [c], speed, none⟩
    else ⟨[OutLine.lit (chars "ERR RESET")], [c], speed, none⟩
  else if verb = chars "SETC" then
    match arg with
    | none => ⟨[OutLine.lit (chars "ERR SETC missing_value")], [], speed, none⟩
    | some a =>
      if a = [] then ⟨[OutLine.lit (chars "ERR SETC missing_value")], [], speed, none⟩
      else
        let c := WriteCall.wFloat 2102 INST_MON a
        if clientOk c then ⟨[OutLine.floatPrint (chars "OK SETC ") a 3], [c], speed, none⟩
        else ⟨[OutLine.lit (chars "ERR SETC")], [c], speed, none⟩
  else if verb = chars "SETT" then
    match arg with
    | none => ⟨[OutLine.lit (chars "ERR SETT missing_value")], [], speed, none⟩
    | some a =>
      if a = [] then ⟨[OutLine.lit (chars "ERR SETT missing_value")], [], speed, none⟩
      else
        let c := WriteCall.wFloat 4000 INST_MON a
        if clientOk c then ⟨[OutLine.floatPrint (chars "OK SETT ") a 2], [c], speed, none⟩
        else ⟨[OutLine.lit (chars "ERR SETT")], [c], speed, none⟩
  else if verb = chars "SETPWR" ∨ verb = chars "SETPOWER" then
    match arg with
    | none => ⟨[OutLine.lit (chars "ERR SETPWR missing_value")], [], speed, none⟩
    | some a =>
      if a = [] then ⟨[OutLine.lit (chars "ERR SETPWR missing_value")], [], speed, none⟩
      else
        let pct := constrain (atoiChars a) 0 100
        ⟨[OutLine.lit (chars "OK SETPWR " ++ chars (toString pct))], [], pct,
          some (setPumpSpeed pct)⟩
  else ⟨[OutLine.lit (chars "ERR unknown_cmd " ++ verb)], [], speed, none⟩

/-- sensor.ino lines 164-236: handleCommandLine.  After trimming, an
empty line is dropped without output; otherwise the parsed verb and
argument go through the verb table. -/
def handleCommandLine (clientOk : WriteCall → Bool) (speed : Int)
    (line : List Char) : CmdEffects :=
  if ltrimC line = [] then ⟨[], [], speed, none⟩
  else dispatch clientOk speed (codeVerb line) (codeArg line)

/-- The verbs the dispatcher recognizes. -/
def knownVerbs : List (List Char) :=
  [chars "PING", chars "GET", chars "RESET", chars "SETC", chars "SETT",
   chars "SETPWR", chars "SETPOWER"]

/-- The `ERR ... missing_value` line the dispatcher emits for each
set-command verb (SETPOWER is an alias replying as SETPWR, matching the
spec's verb table). -/
def missingErrLine (verb : List Char) : List Char :=
  if verb = chars "SETC" then chars "ERR SETC missing_value"
  else if verb = chars "SETT" then chars "ERR SETT missing_value"
  else chars "ERR SETPWR missing_value"

/-- Modelled from the spec (amended claim C8): the verb is the first
space-delimited token of the trimmed line, upper-cased; the space
character alone delimits. -/
def specVerb (line : List Char) : List Char :=
  ((ltrimC line).takeWhile (fun c => !(c == ' '))).map cToUpper

/-- Modelled from the spec (amended claim C8): the argument is the
remainder of the original trimmed line past the first space, with
further leading whitespace trimmed; absent when the line has no
space. -/
def specArg (line : List Char) : Option (List Char) :=
  if (ltrimC line).any (fun c => c == ' ') then
    some (ltrimC (((ltrimC line).dropWhile (fun c => !(c == ' '))).drop 1))
  else none

/-- Modelled from the spec: claim C8's words read the verb as the first
whitespace-delimited token (space or tab), upper-cased. -/
def wsVerb (line : List Char) : List Char :=
  ((ltrimC line).takeWhile (fun c => !(isSpTab c))).map cToUpper

/-- One iteration of the receive loop in ArduinoSerial_recvData
(ArduinoSerial.cpp lines 27-36): the byte delivered by
ArduinoSerial->read() (none models a negative return, i.e. no byte
available) and the millis() value sampled at the do-while condition. -/
structure RecvEvent where
  readVal : Option Nat
  now : Nat
deriving DecidableEq

/-- ArduinoSerial.cpp lines 26-36: the do-while accumulation loop.
`startTime` is the millis() sample at entry, `timeout` is
MEPORT_SET_AND_QUERY_TIMEOUT and `cap` is MEPORT_MAX_RX_BUF_SIZE (both
defined in MePort.h, outside src/, hence parameters).  Each event is one
iteration: a read, the store/terminator/capacity handling, then the
timeout check; the environment list is consumed one event per
iteration. -/
def recvLoop (startTime timeout cap : Nat) : List RecvEvent → List Nat → List Nat
  | [], acc => acc
  | e :: rest, acc =>
    match e.readVal with
    | none =>
      if u32sub e.now startTime < timeout then recvLoop startTime timeout cap rest acc
      else acc
    | some b =>
      let acc2 := acc ++ [b]
      if b = 13 ∨ cap ≤ acc2.length then acc2
      else if u32sub e.now startTime < timeout then recvLoop startTime timeout cap rest acc2
      else acc2

/-- ArduinoSerial.cpp lines 23-42: ArduinoSerial_recvData.  Runs the
receive loop on an empty buffer and forwards the frame to
MePort_ReceiveByte only when at least one byte was received (`none`
means MePort_ReceiveByte is not called). -/
def ArduinoSerial_recvData (startTime timeout cap : Nat)
    (events : List RecvEvent) : Option (List Nat) :=
  let frame := recvLoop startTime timeout cap events []
  if frame.length > 0 then some frame else none

/-- A telemetry tick input whose every MeCom query fails (return code 0)
and whose local sensors also fail (HDC read fails; the pressure bytes
are left at zero, a valid status). -/
def allFailTickInput : TickInput where
  cliFloatRet := fun _ => 0
  cliFloatVal := fun _ => 0
  cliLongRet := fun _ => 0
  cliLongVal := fun _ => 0
  errText := []
  byte1 := 0
  byte2 := 0
  hdc := HdcResult.fail
  nanCastLong := 0
  fgSnapshot := 0
  lastPulses := 0
  cache := initCache
  speed := 40

/-- A telemetry tick input whose pressure transducer reports status 3
(both status bits set, byte1 = 0xC0). -/
def badStatusTickInput : TickInput where
  cliFloatRet := fun _ => 1
  cliFloatVal := fun _ => 0
  cliLongRet := fun _ => 1
  cliLongVal := fun _ => 0
  errText := []
  byte1 := 192
  byte2 := 0
  hdc := HdcResult.fail
  nanCastLong := 0
  fgSnapshot := 0
  lastPulses := 0
  cache := initCache
  speed := 40

lemma isr_iterate (k s : Nat) (hs : s < U32MOD) :
    ISR_fg^[k] s = (s + k) % U32MOD := by
  induction k with
  | zero =>
    simp [Nat.mod_eq_of_lt hs]
  | succ n ih =>
    rw [Function.iterate_succ_apply', ih]
    simp only [ISR_fg, U32MOD] at *
    omega

lemma u32sub_advance (s k : Nat) (hs : s < U32MOD) :
    u32sub ((s + k) % U32MOD) s = k % U32MOD := by
  simp only [u32sub, U32MOD] at *
  omega

/-- Claim C5: if cumulative_pulses advances by exactly PULSES_PER_REV (6)
between two telemetry samples taken one period (1000 ms) apart, the delta
snapshotted by the loop is 6 and the derived RPM, `dp * 60 / 6`, equals
60 / (period in seconds) = 60. -/
theorem c5_rpm_of_one_rev (lastPulses : Nat) :
    u32sub (ISR_fg^[PULSES_PER_REV] (lastPulses % U32MOD)) (lastPulses % U32MOD)
      = PULSES_PER_REV ∧
    pumpRpm PULSES_PER_REV = 60 / ((TELEMETRY_PERIOD_MS : ℚ) / 1000) := by
  have hlt : lastPulses % U32MOD < U32MOD :=
    Nat.mod_lt _ (by simp [U32MOD])
  constructor
  · rw [isr_iterate _ _ hlt, u32sub_advance _ _ hlt]
    simp [PULSES_PER_REV, U32MOD]
  · norm_num [pumpRpm, PULSES_PER_REV, TELEMETRY_PERIOD_MS]

/-- Claim C10: over consecutive telemetry ticks, the 32-bit unsigned
delta `dp = snapshot - last_sampled_pulses` equals the number of ISR
increments between the two snapshots modulo 2^32, so the delta (and with
it the RPM) stays correct across a wraparound of fgPulses; when fewer
than 2^32 increments occur between ticks, dp is exactly that number. -/
theorem c10_delta_mod_wraparound (s k : Nat) (hs : s < U32MOD) :
    u32sub (ISR_fg^[k] s) s = k % U32MOD ∧
    (k < U32MOD → u32sub (ISR_fg^[k] s) s = k) := by
  have h : u32sub (ISR_fg^[k] s) s = k % U32MOD := by
    rw [isr_iterate _ _ hs, u32sub_advance _ _ hs]
  exact ⟨h, fun hk => by rw [h, Nat.mod_eq_of_lt hk]⟩

/-- Witness for C10 across the wrap boundary: starting 3 pulses before
the counter wraps and firing the ISR 9 times yields a delta of 9. -/
theorem c10_delta_mod_wraparound_witness :
    u32sub (ISR_fg^[9] (U32MOD - 3)) (U32MOD - 3) = 9 % U32MOD ∧
    u32sub (ISR_fg^[9] (U32MOD - 3)) (U32MOD - 3) = 9 := by
  have h := c10_delta_mod_wraparound (U32MOD - 3) 9 (by decide)
  exact ⟨h.1, h.2 (by decide)⟩

lemma readPressure_snd (b1 b2 : Nat) : (readPressure b1 b2).2 = pressStatus b1 := by
  by_cases h : pressStatus b1 = 0 <;> simp [readPressure, h]

lemma readPressure_fst_of_bad (b1 b2 : Nat) (h : pressStatus b1 ≠ 0) :
    (readPressure b1 b2).1 = FVal.nan := by
  unfold readPressure
  simp [h]

lemma hdcFold_fst (rs : List HdcResult) : ∀ c : EnvCache,
    (hdcFold c rs).1 =
      (match lastSuccess rs with
       | none => c
       | some x => ⟨hdcConvTemp x.1, hdcConvHum x.2⟩) := by
  induction rs with
  | nil => intro c; rfl
  | cons r rs ih =>
    intro c
    cases h : lastSuccess rs with
    | some x =>
      cases r with
      | fail => simp [hdcFold, lastSuccess, h, ih]
      | success t hu => simp [hdcFold, lastSuccess, h, ih]
    | none =>
      cases r with
      | fail => simp [hdcFold, lastSuccess, h, ih, hdcTick]
      | success t hu => simp [hdcFold, lastSuccess, h, ih, hdcTick]

/-- Claim C7: the environmental cache invariant.  Folding any sequence
of read outcomes from the initial sentinels (-40, 0) leaves the cache
holding the conversion of the most recent successful read, or the
sentinels when none succeeded yet; each tick prints exactly the cache
contents as they stand after that tick (a failed read is
indistinguishable from a fresh one downstream); a failed read leaves the
cache unchanged and a successful one overwrites it. -/
theorem c7_env_cache_invariant :
    (∀ rs : List HdcResult,
      (hdcFold initCache rs).1 =
        (match lastSuccess rs with
         | none => initCache
         | some x => ⟨hdcConvTemp x.1, hdcConvHum x.2⟩)) ∧
    (∀ (c : EnvCache) (r : HdcResult),
      (hdcTick c r).2 = ((hdcTick c r).1.lastTemperature, (hdcTick c r).1.lastHumidity)) ∧
    (∀ c : EnvCache, (hdcTick c HdcResult.fail).1 = c) ∧
    (∀ (c : EnvCache) (t h : Nat),
      (hdcTick c (HdcResult.success t h)).1 = ⟨hdcConvTemp t, hdcConvHum h⟩) := by
  refine ⟨fun rs => hdcFold_fst rs initCache, fun c r => ?_, fun c => rfl, fun c t h => rfl⟩
  cases r <;> rfl

/-- Claim C1 (code bug): the CSV header printed once at startup has 35
comma-separated fields — its first name is ms — while every telemetry
row prints exactly 34 fields whatever the cycle's read outcomes, so the
header and the data rows never have the same field count. -/
theorem c1_header_has_35_fields_rows_have_34 :
    (splitFields mergedHeader.toList).length = 35 ∧
    (∀ inp : TickInput, (telemetryTick inp).row.length = 34) ∧
    (35 : Nat) ≠ 34 := by
  exact ⟨by decide, fun inp => rfl, by decide⟩

/-- Claim C6: with status bits 0 and a raw count equal to Out_min
(1638), readPressure computes P_min * 1000 = 0 millibar; with non-zero
status bits the telemetry row prints the literal token nan in the
pressure field while the pressure_status field of the same row carries
the non-zero status value. -/
theorem c6_pressure_calibration_and_nan :
    (∀ b1 b2 : Nat, pressStatus b1 = 0 → (pressRaw b1 b2 : ℚ) = Out_min →
      readPressure b1 b2 = (FVal.num (P_min * 1000), 0) ∧ P_min * 1000 = 0) ∧
    (∀ inp : TickInput, pressStatus inp.byte1 ≠ 0 →
      (telemetryTick inp).row.get? 29 = some (RField.txt (chars "nan")) ∧
      (telemetryTick inp).row.get? 33 = some (RField.int (pressStatus inp.byte1))) := by
  constructor
  · intro b1 b2 hst hraw
    constructor
    · unfold readPressure
      rw [hst]
      simp only [if_pos rfl]
      rw [hraw]
      norm_num [P_min, P_max, Out_min, Out_max]
    · norm_num [P_min]
  · intro inp h
    have h29 : (telemetryTick inp).row.get? 29 =
        some (if (readPressure inp.byte1 inp.byte2).2 = 0
              then RField.flt (readPressure inp.byte1 inp.byte2).1 1
              else RField.txt ("nan".toList)) := rfl
    have h33 : (telemetryTick inp).row.get? 33 =
        some (RField.int ((readPressure inp.byte1 inp.byte2).2 : Int)) := rfl
    rw [h29, h33, readPressure_snd, if_neg h]
    exact ⟨rfl, rfl⟩

/-- Witness for C6: bytes 0x06 0x66 give status 0 and raw count 1638,
hence pressure 0 mb; the bad-status input (byte1 = 0xC0, status 3)
prints nan in the pressure field and 3 in the status field. -/
theorem c6_pressure_calibration_and_nan_witness :
    readPressure 6 102 = (FVal.num (P_min * 1000), 0) ∧
    (telemetryTick badStatusTickInput).row.get? 29 = some (RField.txt (chars "nan")) ∧
    (telemetryTick badStatusTickInput).row.get? 33 =
      some (RField.int (pressStatus badStatusTickInput.byte1)) := by
  have h1 := (c6_pressure_calibration_and_nan.1 6 102 (by decide) (by decide)).1
  have h2 := c6_pressure_calibration_and_nan.2 badStatusTickInput (by decide)
  exact ⟨h1, h2.1, h2.2⟩

/-- Claim C9: a parameter query whose client reports failure (return
code ≠ 1) makes readFloat return NaN with ok=false and readLong return
-1 with ok=false; a tick where every query fails still emits a full
34-field row, with the typed sentinels in the value fields (the error
number field prints -1, the first float field prints nan). -/
theorem c9_param_failure_sentinels :
    ∀ (ret : Nat) (v : ℚ) (retL : Nat) (vL : Int) (inp : TickInput),
      ret ≠ 1 → retL ≠ 1 →
      (∀ p, inp.cliFloatRet p ≠ 1) → (∀ p, inp.cliLongRet p ≠ 1) →
      readFloatM ret v = (FVal.nan, false) ∧
      readLongM retL vL = (-1, false) ∧
      (telemetryTick inp).row.length = 34 ∧
      (telemetryTick inp).row.get? 0 = some (RField.int (-1)) ∧
      (telemetryTick inp).row.get? 4 = some (RField.flt FVal.nan 6) := by
  intro ret v retL vL inp hf hl hF hL
  refine ⟨by simp [readFloatM, hf], by simp [readLongM, hl], rfl, ?_, ?_⟩
  · have h0 : (telemetryTick inp).row.get? 0 =
        some (RField.int (readLongM (inp.cliLongRet 105) (inp.cliLongVal 105)).1) := rfl
    rw [h0]
    simp [readLongM, hL 105]
  · have h4 : (telemetryTick inp).row.get? 4 =
        some (RField.flt (readFloatM (inp.cliFloatRet 1100) (inp.cliFloatVal 1100)).1 6) := rfl
    rw [h4]
    simp [readFloatM, hF 1100]

/-- Witness for C9: with every client return code 0, readFloat yields
(NaN, false), readLong yields (-1, false), and the all-failure tick
still emits its 34-field row with the sentinels in place. -/
theorem c9_param_failure_sentinels_witness :
    readFloatM 0 0 = (FVal.nan, false) ∧
    readLongM 0 0 = (-1, false) ∧
    (telemetryTick allFailTickInput).row.length = 34 ∧
    (telemetryTick allFailTickInput).row.get? 0 = some (RField.int (-1)) ∧
    (telemetryTick allFailTickInput).row.get? 4 = some (RField.flt FVal.nan 6) :=
  c9_param_failure_sentinels 0 0 0 0 allFailTickInput (by decide) (by decide)
    (fun p => by simp [allFailTickInput]) (fun p => by simp [allFailTickInput])

lemma codeVerb_of_trim_nil {line : List Char} (h : ltrimC line = []) :
    codeVerb line = [] := by
  simp [codeVerb, h, strchrIdx]

lemma handle_eq_dispatch (clientOk : WriteCall → Bool) (speed : Int)
    (line : List Char) (h : codeVerb line ≠ []) :
    handleCommandLine clientOk speed line =
      dispatch clientOk speed (codeVerb line) (codeArg line) := by
  unfold handleCommandLine
  rw [if_neg]
  intro h0
  exact h (codeVerb_of_trim_nil h0)

/-- Claim C3: a SETC/SETT/SETPWR/SETPOWER command line whose argument is
absent, or empty after trimming, makes the dispatcher emit exactly the
corresponding `ERR ... missing_value` line (SETPOWER replying as SETPWR,
as in the spec's verb table) and issue no parameter write, no pump-speed
change and no PWM write. -/
theorem c3_missing_value_no_write (clientOk : WriteCall → Bool) (speed : Int)
    (line : List Char)
    (hv : codeVerb line = chars "SETC" ∨ codeVerb line = chars "SETT" ∨
          codeVerb line = chars "SETPWR" ∨ codeVerb line = chars "SETPOWER")
    (hm : codeArg line = none ∨ codeArg line = some []) :
    (handleCommandLine clientOk speed line).out =
      [OutLine.lit (missingErrLine (codeVerb line))] ∧
    (handleCommandLine clientOk speed line).writes = [] ∧
    (handleCommandLine clientOk speed line).speed = speed ∧
    (handleCommandLine clientOk speed line).pwm = none := by
  have hne : codeVerb line ≠ [] := by
    rcases hv with h | h | h | h <;> rw [h] <;> decide
  rw [handle_eq_dispatch clientOk speed line hne]
  rcases hv with h | h | h | h <;> rcases hm with hm | hm <;> rw [h, hm] <;>
    exact ⟨rfl, rfl, rfl, rfl⟩

/-- Witness for C3: the bare line SETC (no argument at all) and the line
with a blank argument both yield only the missing_value error, and the
error line for SETC is literally `ERR SETC missing_value`. -/
theorem c3_missing_value_no_write_witness :
    (handleCommandLine (fun _ => true) 40 (chars "SETC")).out =
      [OutLine.lit (missingErrLine (codeVerb (chars "SETC")))] ∧
    (handleCommandLine (fun _ => true) 40 (chars "SETC")).writes = [] ∧
    (handleCommandLine (fun _ => true) 40 (chars "SETC")).speed = 40 ∧
    (handleCommandLine (fun _ => true) 40 (chars "SETC")).pwm = none ∧
    missingErrLine (codeVerb (chars "SETC")) = chars "ERR SETC missing_value" := by
  have h := c3_missing_value_no_write (fun _ => true) 40 (chars "SETC")
    (Or.inl (by decide)) (Or.inl (by decide))
  exact ⟨h.1, h.2.1, h.2.2.1, h.2.2.2, by decide⟩

lemma constrain_eq_clamp (x : Int) : constrain x 0 100 = max 0 (min 100 x) := by
  unfold constrain
  split_ifs <;> omega

lemma dispatch_setpwr (clientOk : WriteCall → Bool) (speed : Int)
    (v a : List Char) (hv : v = chars "SETPWR" ∨ v = chars "SETPOWER")
    (hne : a ≠ []) :
    dispatch clientOk speed v (some a) =
      ⟨[OutLine.lit (chars "OK SETPWR " ++ chars (toString (constrain (atoiChars a) 0 100)))],
       [], constrain (atoiChars a) 0 100,
       some (setPumpSpeed (constrain (atoiChars a) 0 100))⟩ := by
  have step : ∀ w : List Char, w = chars "SETPWR" ∨ w = chars "SETPOWER" →
      dispatch clientOk speed w (some a) =
        (if a = [] then
          (⟨[OutLine.lit (chars "ERR SETPWR missing_value")], [], speed, none⟩ : CmdEffects)
         else
          ⟨[OutLine.lit (chars "OK SETPWR " ++ chars (toString (constrain (atoiChars a) 0 100)))],
           [], constrain (atoiChars a) 0 100,
           some (setPumpSpeed (constrain (atoiChars a) 0 100))⟩) := by
    intro w hw
    rcases hw with h | h <;> rw [h] <;> rfl
  rw [step v hv, if_neg hne]

/-- Claim C4: a SETPWR (or SETPOWER) command with an in-range integer
argument n stores n clamped to [0, 100] as the commanded pump speed,
echoes exactly `OK SETPWR <clamped>`, performs the PWM write through
setPumpSpeed, and issues no MeCom parameter write. -/
theorem c4_setpwr_clamps (clientOk : WriteCall → Bool) (speed : Int)
    (line a : List Char) (n : Int)
    (hv : codeVerb line = chars "SETPWR" ∨ codeVerb line = chars "SETPOWER")
    (ha : codeArg line = some a) (hne : a ≠ [])
    (hn : atoiChars a = n) (_hlo : -32768 ≤ n) (_hhi : n ≤ 32767) :
    (handleCommandLine clientOk speed line).speed = max 0 (min 100 n) ∧
    (handleCommandLine clientOk speed line).out =
      [OutLine.lit (chars "OK SETPWR " ++ chars (toString (max 0 (min 100 n))))] ∧
    (handleCommandLine clientOk speed line).writes = [] ∧
    (handleCommandLine clientOk speed line).pwm =
      some (setPumpSpeed (max 0 (min 100 n))) := by
  have hvne : codeVerb line ≠ [] := by
    rcases hv with h | h <;> rw [h] <;> decide
  rw [handle_eq_dispatch clientOk speed line hvne, ha,
    dispatch_setpwr clientOk speed (codeVerb line) a hv hne, hn, constrain_eq_clamp]
  exact ⟨rfl, rfl, rfl, rfl⟩

/-- Witness for C4: SETPWR -5 stores 0 and replies OK SETPWR 0,
SETPWR 150 stores 100 and replies OK SETPWR 100, SETPWR 55 stores 55 and
replies OK SETPWR 55. -/
theorem c4_setpwr_clamps_witness :
    ((handleCommandLine (fun _ => true) 40 (chars "SETPWR -5")).speed = max 0 (min 100 (-5)) ∧
      (handleCommandLine (fun _ => true) 40 (chars "SETPWR -5")).out =
        [OutLine.lit (chars "OK SETPWR " ++ chars (toString (max 0 (min 100 (-5 : Int)))))]) ∧
    ((handleCommandLine (fun _ => true) 40 (chars "SETPWR 150")).speed = max 0 (min 100 150) ∧
      (handleCommandLine (fun _ => true) 40 (chars "SETPWR 150")).out =
        [OutLine.lit (chars "OK SETPWR " ++ chars (toString (max 0 (min 100 (150 : Int)))))]) ∧
    ((handleCommandLine (fun _ => true) 40 (chars "SETPWR 55")).speed = max 0 (min 100 55) ∧
      (handleCommandLine (fun _ => true) 40 (chars "SETPWR 55")).out =
        [OutLine.lit (chars "OK SETPWR " ++ chars (toString (max 0 (min 100 (55 : Int)))))]) ∧
    max 0 (min 100 (-5 : Int)) = 0 ∧ max 0 (min 100 (150 : Int)) = 100 ∧
    max 0 (min 100 (55 : Int)) = 55 := by
  have h1 := c4_setpwr_clamps (fun _ => true) 40 (chars "SETPWR -5") (chars "-5") (-5)
    (Or.inl (by decide)) (by decide) (by decide) (by decide) (by decide) (by decide)
  have h2 := c4_setpwr_clamps (fun _ => true) 40 (chars "SETPWR 150") (chars "150") 150
    (Or.inl (by decide)) (by decide) (by decide) (by decide) (by decide) (by decide)
  have h3 := c4_setpwr_clamps (fun _ => true) 40 (chars "SETPWR 55") (chars "55") 55
    (Or.inl (by decide)) (by decide) (by decide) (by decide) (by decide) (by decide)
  exact ⟨⟨h1.1, h1.2.1⟩, ⟨h2.1, h2.2.1⟩, ⟨h3.1, h3.2.1⟩, by decide, by decide, by decide⟩

lemma strchrIdx_take (p : Char → Bool) (t : List Char) :
    (match strchrIdx p t with
     | some i => t.take i
     | none => t) = t.takeWhile (fun c => !(p c)) := by
  induction t with
  | nil => rfl
  | cons c cs ih =>
    by_cases h : p c
    · simp [strchrIdx, h, List.takeWhile]
    · cases hx : strchrIdx p cs with
      | none =>
        rw [hx] at ih
        simp [strchrIdx, h, hx, List.takeWhile]
        exact ih
      | some i =>
        rw [hx] at ih
        simp [strchrIdx, h, hx, List.takeWhile]
        exact ih

lemma strchrIdx_none_iff (p : Char → Bool) (l : List Char) :
    strchrIdx p l = none ↔ l.any p = false := by
  induction l with
  | nil => simp [strchrIdx]
  | cons c cs ih =>
    by_cases h : p c <;> simp [strchrIdx, h, ih]

lemma strchrIdx_drop (p : Char → Bool) :
    ∀ (l : List Char) (i : Nat), strchrIdx p l = some i →
      l.drop (i + 1) = (l.dropWhile (fun c => !(p c))).drop 1 := by
  intro l
  induction l with
  | nil => intro i h; simp [strchrIdx] at h
  | cons c cs ih =>
    intro i h
    by_cases hc : p c
    · simp [strchrIdx, hc] at h
      subst h
      simp [List.dropWhile, hc]
    · simp [strchrIdx, hc] at h
      obtain ⟨j, hj, hji⟩ := h
      subst hji
      simp [List.dropWhile, hc]
      rw [← List.drop_one]
      exact ih j hj

lemma codeVerb_eq_specVerb (line : List Char)
    (hlen : (ltrimC line).length ≤ 127) :
    codeVerb line = specVerb line := by
  simp only [codeVerb, specVerb]
  rw [List.take_of_length_le hlen]
  exact congrArg (List.map cToUpper) (strchrIdx_take (fun c => c == ' ') (ltrimC line))

lemma codeArg_eq_specArg (line : List Char)
    (hlen : (ltrimC line).length ≤ 127) :
    codeArg line = specArg line := by
  simp only [codeArg, specArg]
  rw [List.take_of_length_le hlen]
  cases hx : strchrIdx (fun c => c == ' ') (ltrimC line) with
  | none =>
    have hany : (ltrimC line).any (fun c => c == ' ') = false :=
      (strchrIdx_none_iff _ _).mp hx
    simp [hany]
  | some i =>
    have hany : (ltrimC line).any (fun c => c == ' ') = true := by
      cases hh : (ltrimC line).any (fun c => c == ' ') with
      | true => rfl
      | false =>
        have hcontr := (strchrIdx_none_iff (fun c => c == ' ') (ltrimC line)).mpr hh
        rw [hx] at hcontr
        exact Option.noConfusion hcontr
    have hred : (match some i with
        | some i => some (ltrimC (List.drop (i + 1) (ltrimC line)))
        | none => none) = some (ltrimC (List.drop (i + 1) (ltrimC line))) := rfl
    rw [hred, strchrIdx_drop _ _ _ hx, if_pos hany]

/-- Claim C8 (amended): for every command line whose trimmed form fits
the dispatcher's 127-character copy, the verb is the first
space-delimited token (only the space character delimits — a tab does
not) of the trimmed line, upper-cased, and the argument is the remainder
of the original trimmed line past that space with further leading
whitespace trimmed — recognized and unrecognized verbs alike; and
whenever the verb is unrecognized the reply is exactly one
`ERR unknown_cmd <VERB>` line echoing the upper-cased token, with no
write and no state change. -/
theorem c8_space_delimited_parse (clientOk : WriteCall → Bool) (speed : Int)
    (line : List Char) (hlen : (ltrimC line).length ≤ 127) :
    codeVerb line = specVerb line ∧
    codeArg line = specArg line ∧
    (ltrimC line ≠ [] → specVerb line ∉ knownVerbs →
      (handleCommandLine clientOk speed line).out =
        [OutLine.lit (chars "ERR unknown_cmd " ++ specVerb line)] ∧
      (handleCommandLine clientOk speed line).writes = [] ∧
      (handleCommandLine clientOk speed line).speed = speed) := by
  have hv := codeVerb_eq_specVerb line hlen
  have harg := codeArg_eq_specArg line hlen
  refine ⟨hv, harg, ?_⟩
  intro hnil hunk
  simp only [knownVerbs, List.mem_cons, List.mem_singleton, not_or] at hunk
  obtain ⟨h1, h2, h3, h4, h5, h6, h7, -⟩ := hunk
  unfold handleCommandLine
  rw [if_neg hnil, hv]
  unfold dispatch
  rw [if_neg h1, if_neg h2, if_neg h3, if_neg h4, if_neg h5,
    if_neg (not_or.mpr ⟨h6, h7⟩)]
  exact ⟨rfl, rfl, rfl⟩

/-- Witness for C8 (amended): the recognized-verb line `setc 5` parses
to verb SETC and argument 5 by the space-delimited rule, and the
unknown-verb line `frobnicate 42` parses to verb FROBNICATE with
argument 42 and is answered by exactly `ERR unknown_cmd FROBNICATE`. -/
theorem c8_space_delimited_parse_witness :
    (codeVerb (chars "setc 5") = specVerb (chars "setc 5") ∧
     specVerb (chars "setc 5") = chars "SETC" ∧
     codeArg (chars "setc 5") = specArg (chars "setc 5") ∧
     specArg (chars "setc 5") = some (chars "5")) ∧
    (codeVerb (chars "frobnicate 42") = specVerb (chars "frobnicate 42") ∧
     codeArg (chars "frobnicate 42") = specArg (chars "frobnicate 42") ∧
     specVerb (chars "frobnicate 42") = chars "FROBNICATE" ∧
     specArg (chars "frobnicate 42") = some (chars "42") ∧
     (handleCommandLine (fun _ => true) 40 (chars "frobnicate 42")).out =
       [OutLine.lit (chars "ERR unknown_cmd " ++ specVerb (chars "frobnicate 42"))]) := by
  have h1 := c8_space_delimited_parse (fun _ => true) 40 (chars "setc 5") (by decide)
  have h2 := c8_space_delimited_parse (fun _ => true) 40 (chars "frobnicate 42") (by decide)
  exact ⟨⟨h1.1, by decide, h1.2.1, by decide⟩,
    ⟨h2.1, h2.2.1, by decide, by decide, (h2.2.2 (by decide) (by decide)).1⟩⟩

/-- Counterexample to C8 as stated: on the line containing a tab,
`ping`, tab, `1`, the claim's whitespace-delimited parse yields the
recognized verb PING (so the reply would be OK PONG), but the dispatcher
only splits at the space character, takes the whole line as the verb and
answers `ERR unknown_cmd PING` followed by the tab and the 1. -/
theorem c8_whitespace_delimited_counterexample :
    wsVerb (chars "ping\t1") = chars "PING" ∧
    (handleCommandLine (fun _ => true) 40 (chars "ping\t1")).out =
      [OutLine.lit (chars "ERR unknown_cmd PING\t1")] ∧
    [OutLine.lit (chars "ERR unknown_cmd PING\t1")] ≠
      [OutLine.lit (chars "OK PONG")] := by
  exact ⟨by decide, by decide, by decide⟩

lemma recvLoop_all_none (st tout cap : Nat) :
    ∀ (evs : List RecvEvent) (acc : List Nat),
      (∀ e ∈ evs, e.readVal = none) → recvLoop st tout cap evs acc = acc := by
  intro evs
  induction evs with
  | nil => intro acc _; rfl
  | cons e rest ih =>
    intro acc h
    have he : e.readVal = none := h e (List.Mem.head rest)
    simp only [recvLoop, he]
    split
    · exact ih acc (fun x hx => h x (List.Mem.tail e hx))
    · rfl

lemma recvLoop_length_le (st tout cap : Nat) :
    ∀ (evs : List RecvEvent) (acc : List Nat),
      acc.length < cap → (recvLoop st tout cap evs acc).length ≤ cap := by
  intro evs
  induction evs with
  | nil => intro acc h; exact Nat.le_of_lt h
  | cons e rest ih =>
    intro acc h
    cases hr : e.readVal with
    | none =>
      simp only [recvLoop, hr]
      split
      · exact ih acc h
      · exact Nat.le_of_lt h
    | some b =>
      simp only [recvLoop, hr]
      have hlen : (acc ++ [b]).length = acc.length + 1 := by simp
      split
      · rw [hlen]; omega
      · split
        · exact ih (acc ++ [b]) (by
            rename_i hbrk _
            rw [hlen]
            rw [hlen] at hbrk
            omega)
        · rw [hlen]; omega

/-- Claim C2: the contract of the bus receive loop.  (1) a carriage
return (13) read in some iteration ends the frame at once, keeping the
CR, regardless of later events; (2) a byte that fills the buffer to
capacity ends the frame at once with that byte stored and no error
signalled — the same plain frame return as every other exit; (3) from
an empty buffer the frame never exceeds the capacity; (4) once the
elapsed time since entry reaches the timeout, the loop consumes no
further events (so with no incoming bytes it returns at the first check
past the deadline rather than blocking); (5) when no byte arrives the
result is empty and is not forwarded — MePort_ReceiveByte is not
called. -/
theorem c2_recv_contract (startTime timeout cap : Nat) :
    (∀ (e : RecvEvent) (rest : List RecvEvent) (acc : List Nat),
      e.readVal = some 13 →
      recvLoop startTime timeout cap (e :: rest) acc = acc ++ [13]) ∧
    (∀ (e : RecvEvent) (rest : List RecvEvent) (acc : List Nat) (b : Nat),
      e.readVal = some b → cap ≤ (acc ++ [b]).length →
      recvLoop startTime timeout cap (e :: rest) acc = acc ++ [b]) ∧
    (∀ (evs : List RecvEvent) (acc : List Nat), acc.length < cap →
      (recvLoop startTime timeout cap evs acc).length ≤ cap) ∧
    (∀ (e : RecvEvent) (rest : List RecvEvent) (acc : List Nat),
      ¬ u32sub e.now startTime < timeout →
      recvLoop startTime timeout cap (e :: rest) acc =
        recvLoop startTime timeout cap [e] acc) ∧
    (∀ evs : List RecvEvent, (∀ e ∈ evs, e.readVal = none) →
      ArduinoSerial_recvData startTime timeout cap evs = none) := by
  refine ⟨?_, ?_, recvLoop_length_le startTime timeout cap, ?_, ?_⟩
  · intro e rest acc h
    simp [recvLoop, h]
  · intro e rest acc b h hcap
    simp only [recvLoop, h]
    rw [if_pos (Or.inr hcap)]
  · intro e rest acc hto
    cases hr : e.readVal with
    | none => simp [recvLoop, hr, hto]
    | some b =>
      simp [recvLoop, hr, hto]
  · intro evs h
    simp only [ArduinoSerial_recvData]
    rw [recvLoop_all_none startTime timeout cap evs [] h]
    rfl

/-- Witness for C2: a CR event ends the frame with the CR kept and later
events ignored; with capacity 1 a data byte ends the frame at once; a
four-byte capacity is never exceeded; an event past the 100 ms deadline
stops consumption of the rest; three empty polls produce no forwarded
frame. -/
theorem c2_recv_contract_witness :
    recvLoop 0 100 32 [⟨some 13, 5⟩, ⟨some 65, 6⟩] [] = [] ++ [13] ∧
    recvLoop 0 100 1 [⟨some 65, 7⟩, ⟨some 66, 8⟩] [] = [] ++ [65] ∧
    (recvLoop 0 100 4
      [⟨some 65, 1⟩, ⟨some 66, 2⟩, ⟨some 67, 3⟩, ⟨some 68, 4⟩, ⟨some 69, 5⟩]
      []).length ≤ 4 ∧
    recvLoop 0 100 32 [⟨none, 200⟩, ⟨some 65, 300⟩] [] =
      recvLoop 0 100 32 [⟨none, 200⟩] [] ∧
    ArduinoSerial_recvData 0 100 32 [⟨none, 10⟩, ⟨none, 50⟩, ⟨none, 150⟩] = none := by
  refine ⟨(c2_recv_contract 0 100 32).1 ⟨some 13, 5⟩ [⟨some 65, 6⟩] [] rfl,
    (c2_recv_contract 0 100 1).2.1 ⟨some 65, 7⟩ [⟨some 66, 8⟩] [] 65 rfl (by decide),
    (c2_recv_contract 0 100 4).2.2.1 _ [] (by decide),
    (c2_recv_contract 0 100 32).2.2.2.1 ⟨none, 200⟩ [⟨some 65, 300⟩] [] (by decide),
    (c2_recv_contract 0 100 32).2.2.2.2 _ (by decide)⟩
